import Mathlib

/-!
Verification of the analyzarr repository's title-normalization,
scene-title-extraction, confidence-scoring and tag-state-machine logic.

Strings are modelled as `List Char` at ASCII scope: Python's
`unicodedata.normalize("NFKD", ·)` is the identity on ASCII text, so it is
modelled as the identity; `str.isalnum`, `str.lower`, `str.isdigit`,
`str.isupper`, `str.islower` and the `\w`/`\s`/`\b` regex classes are
modelled by their ASCII meaning.  Number scores are modelled as exact
rationals (`ℚ`).
-/

/-- ASCII decimal digit `0`-`9`. -/
def pyIsDigit (c : Char) : Bool := 48 ≤ c.toNat && c.toNat ≤ 57

/-- ASCII uppercase letter `A`-`Z`. -/
def pyIsUpper (c : Char) : Bool := 65 ≤ c.toNat && c.toNat ≤ 90

/-- ASCII lowercase letter `a`-`z`. -/
def pyIsLower (c : Char) : Bool := 97 ≤ c.toNat && c.toNat ≤ 122

/-- ASCII letter. -/
def pyIsAlpha (c : Char) : Bool := pyIsUpper c || pyIsLower c

/-- ASCII model of Python's `str.isalnum` character test. -/
def pyIsAlnum (c : Char) : Bool := pyIsAlpha c || pyIsDigit c

/-- ASCII model of the regex word-character class `\w` (used for `\b`
word boundaries): alphanumerics and underscore. -/
def isWordChar (c : Char) : Bool := pyIsAlnum c || c == '_'

/-- ASCII model of Python's `str.lower` on a single character
(`'A'..'Z'` map to `'a'..'z'`, everything else unchanged). -/
def pyToLower (c : Char) : Char :=
  if 65 ≤ c.toNat ∧ c.toNat ≤ 90 then Char.ofNat (c.toNat + 32) else c

/-- ASCII model of Python's `\s` whitespace class
(space, tab, newline, vertical tab, form feed, carriage return). -/
def isPySpace (c : Char) : Bool := c == ' ' || (9 ≤ c.toNat && c.toNat ≤ 13)

/-- Python's substring test `needle in hay` for strings:
`needle` occurs contiguously in `hay`. -/
def containsSub : List Char → List Char → Bool
  | n, [] => n.isEmpty
  | n, c :: t => n.isPrefixOf (c :: t) || containsSub n t

/-- Python's `str.isdigit` on ASCII: nonempty and all decimal digits. -/
def pyIsDigitStr (cs : List Char) : Bool := !cs.isEmpty && cs.all pyIsDigit

/-- Python's `str.strip()`: drop leading and trailing whitespace. -/
def pyStrip (cs : List Char) : List Char :=
  ((cs.dropWhile isPySpace).reverse.dropWhile isPySpace).reverse

/-!
### `collapse_numbers` (analyzer.py lines 317-342)

`NUM_RE = (?i)\b(?:NUMWORD)(?:[ \-](?:NUMWORD))*\b` is applied with
`NUM_RE.sub(_repl, text)`, where `_repl` converts the matched phrase with
`word2number.w2n.word_to_num` and falls back to the unchanged phrase when
the conversion fails (the code catches the failure defensively).  The
matcher below implements the regex's left-to-right scan, its alternation
order and its greedy repetition with backtracking.
-/

/-- The number-word alternation of `_NUMWORD` in analyzer.py, in the
regex's alternation order. -/
def numWordStrings : List String :=
  ["zero", "one", "two", "three", "four", "five", "six", "seven", "eight",
   "nine", "ten", "eleven", "twelve", "thirteen", "fourteen", "fifteen",
   "sixteen", "seventeen", "eighteen", "nineteen",
   "twenty", "thirty", "forty", "fifty", "sixty", "seventy", "eighty",
   "ninety", "hundred", "thousand", "million"]

/-- The number words as character lists. -/
def numWordChars : List (List Char) := numWordStrings.map (fun s => s.toList)

/-- Case-insensitive prefix test: the (lowercase) pattern `w` is a prefix
of `cs` up to lowercasing. -/
def ciPrefix : List Char → List Char → Bool
  | [], _ => true
  | _ :: _, [] => false
  | p :: ps, c :: cs => p == pyToLower c && ciPrefix ps cs

/-- The regex word boundary `\b` holds after a word character when the
following text starts with a non-word character (or is empty). -/
def boundaryOk : List Char → Bool
  | [] => true
  | c :: _ => !(isWordChar c)

/-- Backtracking matcher for `(?:W)(?:[ \-](?:W))*\b` at the head of
`cs` (the leading `\b` is checked by the caller): tries the alternation
branches in order, prefers extending the greedy repetition, and yields
the number of characters matched.  `fuel` bounds the nesting depth
(one unit per phrase word, so `cs.length + 1` always suffices). -/
def tryNumAlt (fuel : Nat) (ws : List (List Char)) (cs : List Char) : Option Nat :=
  match fuel, ws with
  | _, [] => none
  | 0, _ => none
  | fuel' + 1, w :: ws' =>
    if ciPrefix w cs then
      let rest := cs.drop w.length
      let ext :=
        match rest with
        | c :: rs =>
          if c == ' ' || c == '-' then
            (tryNumAlt fuel' numWordChars rs).map (fun k => w.length + 1 + k)
          else none
        | [] => none
      match ext with
      | some n => some n
      | none => if boundaryOk rest then some w.length else tryNumAlt fuel' ws' cs
    else tryNumAlt fuel' ws' cs

/-- Match a full number-word phrase at the head of `cs` (fuel covers one
unit per alternation branch tried, which `32 * (cs.length + 2)` always
exceeds). -/
def tryNumPhrase (cs : List Char) : Option Nat :=
  tryNumAlt (32 * (cs.length + 2)) numWordChars cs

/-- Split on runs of space/hyphen, dropping empty pieces: models
`word_to_num`'s `replace('-', ' ')` followed by `str.split()`. -/
def splitNumSeps (cs : List Char) : List (List Char) :=
  let isSep := fun c => c == ' ' || c == '-'
  (cs.splitOnP (isSep ·)).filter (fun w => !w.isEmpty)

/-- Values of the recognized number words (`american_number_system`
restricted to the words `NUM_RE` can match). -/
def numWordVal (w : List Char) : Option Nat :=
  (([("zero", 0), ("one", 1), ("two", 2), ("three", 3), ("four", 4),
     ("five", 5), ("six", 6), ("seven", 7), ("eight", 8), ("nine", 9),
     ("ten", 10), ("eleven", 11), ("twelve", 12), ("thirteen", 13),
     ("fourteen", 14), ("fifteen", 15), ("sixteen", 16), ("seventeen", 17),
     ("eighteen", 18), ("nineteen", 19), ("twenty", 20), ("thirty", 30),
     ("forty", 40), ("fifty", 50), ("sixty", 60), ("seventy", 70),
     ("eighty", 80), ("ninety", 90), ("hundred", 100), ("thousand", 1000),
     ("million", 1000000)] : List (String × Nat)).find?
    (fun p => p.1.toList == w)).map (fun p => p.2)

/-- `word2number`'s `number_formation` helper on the word values of one
group; an empty group is a conversion failure. -/
def numFormation : List Nat → Option Nat
  | [] => none
  | [a] => some a
  | [a, b] => some (if a == 100 || b == 100 then a * b else a + b)
  | [a, b, c] => some (a * b + c)
  | [a, b, c, d] => some (a * b + c + d)
  | a :: _ => some a

/-- Decimal digit list to number (for `word_to_num`'s all-digits early
return). -/
def digitsToNat (cs : List Char) : Nat :=
  cs.foldl (fun acc c => acc * 10 + (c.toNat - 48)) 0

/-- Model of the external `word2number` collaborator's `word_to_num` on a
phrase matched by `NUM_RE` (lowercase, hyphens as separators): group by
the scale words thousand/million and combine with `numFormation`.
Conversion failures yield `none`; per the code's defensive handler (and
the spec's error policy) the caller then leaves the span unchanged. -/
def wordToNum (phrase : List Char) : Option Nat :=
  let low := phrase.map pyToLower
  if pyIsDigitStr low then some (digitsToNat low) else
  let vals := (splitNumSeps low).filterMap numWordVal
  if vals.isEmpty then none
  else if 1 < vals.count 1000 || 1 < vals.count 1000000 then none
  else
    let mi := vals.findIdx? (· == 1000000)
    let ti := vals.findIdx? (· == 1000)
    match mi, ti with
    | some i, some j =>
      if j < i then none
      else
        (numFormation (vals.take i)).bind (fun m =>
          (numFormation ((vals.drop (i + 1)).take (j - i - 1))).bind (fun t =>
            (if j ≠ vals.length - 1 then numFormation (vals.drop (j + 1))
             else some 0).map (fun h => m * 1000000 + t * 1000 + h)))
    | some i, none =>
      match vals with
      | [v] => some v
      | _ =>
        (numFormation (vals.take i)).bind (fun m =>
          (if i ≠ vals.length - 1 then numFormation (vals.drop (i + 1))
           else some 0).map (fun h => m * 1000000 + h))
    | none, some j =>
      match vals with
      | [v] => some v
      | _ =>
        (numFormation (vals.take j)).bind (fun t =>
          (if j ≠ vals.length - 1 then numFormation (vals.drop (j + 1))
           else some 0).map (fun h => t * 1000 + h))
    | none, none =>
      match vals with
      | [v] => some v
      | _ => numFormation vals

/-- Left-to-right scan of `NUM_RE.sub(_repl, text)`: at every position
that follows a non-word character (so that `\b` can hold), try the phrase
matcher; on a match, substitute the converted number (or keep the phrase
on conversion failure) and resume after the match. -/
def collapseNumbersGo (fuel : Nat) (prevIsWord : Bool) (cs : List Char) : List Char :=
  match fuel, cs with
  | 0, cs => cs
  | _, [] => []
  | fuel' + 1, c :: rest =>
    if prevIsWord then c :: collapseNumbersGo fuel' (isWordChar c) rest
    else
      match tryNumPhrase (c :: rest) with
      | some n =>
        let phrase := (c :: rest).take n
        let repl :=
          match wordToNum phrase with
          | some v => (toString v).toList
          | none => phrase
        repl ++ collapseNumbersGo fuel' true ((c :: rest).drop n)
      | none => c :: collapseNumbersGo fuel' (isWordChar c) rest

/-- `collapse_numbers` from analyzer.py: replace each maximal run of
number words with its digit equivalent, leaving other text intact. -/
def collapse_numbers (cs : List Char) : List Char :=
  collapseNumbersGo (cs.length + 1) false cs

/-!
### The `Pt`/`Part` collapse (analyzer.py line 351)

`re.sub(r'(?i)\b(?:pt|part)[\.#]?\s*(\d+)\b', r'\1', text)`.
-/

/-- Try to match `[\.#]?\s*(\d+)\b` right after the `pt`/`part` keyword:
returns the number of characters consumed and the captured digits. -/
def partTail (rest : List Char) : Option (Nat × List Char) :=
  let (optN, rest1) :=
    match rest with
    | c :: r => if c == '.' || c == '#' then (1, r) else (0, rest)
    | [] => (0, rest)
  let sp := rest1.takeWhile isPySpace
  let afterSp := rest1.drop sp.length
  let ds := afterSp.takeWhile pyIsDigit
  if ds.isEmpty then none
  else if boundaryOk (afterSp.drop ds.length) then
    some (optN + sp.length + ds.length, ds)
  else none

/-- Try to match `(?:pt|part)[\.#]?\s*(\d+)\b` at the head of `cs`
(alternation order `pt` before `part`, as in the source regex). -/
def tryPartAt (cs : List Char) : Option (Nat × List Char) :=
  let tryKw := fun (kw : List Char) =>
    if ciPrefix kw cs then
      (partTail (cs.drop kw.length)).map (fun p => (kw.length + p.1, p.2))
    else none
  match tryKw ("pt".toList) with
  | some r => some r
  | none => tryKw ("part".toList)

/-- Left-to-right scan of the `Pt`/`Part` substitution, replacing each
match by its captured digit group. -/
def partNumberGo (fuel : Nat) (prevIsWord : Bool) (cs : List Char) : List Char :=
  match fuel, cs with
  | 0, cs => cs
  | _, [] => []
  | fuel' + 1, c :: rest =>
    if prevIsWord then c :: partNumberGo fuel' (isWordChar c) rest
    else
      match tryPartAt (c :: rest) with
      | some (n, ds) => ds ++ partNumberGo fuel' true ((c :: rest).drop n)
      | none => c :: partNumberGo fuel' (isWordChar c) rest

/-- The `Pt`/`Part` + digits collapse from analyzer.py's
`normalize_title`. -/
def partNumberSub (cs : List Char) : List Char :=
  partNumberGo (cs.length + 1) false cs

/-- `&` replacement: Python's `text.replace("&", "and")`. -/
def replaceAmp : List Char → List Char
  | [] => []
  | c :: r => if c = '&' then 'a' :: 'n' :: 'd' :: replaceAmp r else c :: replaceAmp r

/-- `normalize_title` from analyzer.py (lines 344-354): empty guard,
`&`→`and`, number-word collapse, `Pt`/`Part` collapse, NFKD (identity at
ASCII scope), keep only alphanumerics, lowercase. -/
def normalize_title (cs : List Char) : List Char :=
  if cs.isEmpty then []
  else ((partNumberSub (collapse_numbers (replaceAmp cs))).filter pyIsAlnum).map pyToLower


/-!
### `has_season_episode` (analyzer.py lines 359-378)

`_HAS_EPISODE_RE = (?i)(S\d{1,2}E\d{1,2} | \d{1,2}x\d{1,2} |
\bSeason\s*\d+\s*Episode\s*\d+\b)`, used with `re.search`.
-/

/-- `E\d` continuation for the `S\d{1,2}E\d{1,2}` branch. -/
def eDigitAt : List Char → Bool
  | e :: d :: _ => pyToLower e == 'e' && pyIsDigit d
  | _ => false

/-- A match of `S\d{1,2}E\d{1,2}` starts at the head of `cs`. -/
def sxxEyyAt : List Char → Bool
  | s :: d1 :: rest =>
    pyToLower s == 's' && pyIsDigit d1 &&
      (eDigitAt rest ||
        (match rest with
         | d2 :: r2 => pyIsDigit d2 && eDigitAt r2
         | [] => false))
  | _ => false

/-- `x\d` continuation for the `\d{1,2}x\d{1,2}` branch. -/
def xDigitAt : List Char → Bool
  | x :: d :: _ => pyToLower x == 'x' && pyIsDigit d
  | _ => false

/-- A match of `\d{1,2}x\d{1,2}` starts at the head of `cs`. -/
def nxnAt : List Char → Bool
  | d1 :: rest =>
    pyIsDigit d1 &&
      (xDigitAt rest ||
        (match rest with
         | d2 :: r2 => pyIsDigit d2 && xDigitAt r2
         | [] => false))
  | [] => false

/-- A match of `Season\s*\d+\s*Episode\s*\d+\b` starts at the head of
`cs` (the leading `\b` is checked by the caller). -/
def seasonEpisodeAt (cs : List Char) : Bool :=
  if ciPrefix "season".toList cs then
    let r1 := (cs.drop 6).dropWhile isPySpace
    let ds1 := r1.takeWhile pyIsDigit
    if ds1.isEmpty then false
    else
      let r2 := (r1.drop ds1.length).dropWhile isPySpace
      if ciPrefix "episode".toList r2 then
        let r3 := (r2.drop 7).dropWhile isPySpace
        let ds2 := r3.takeWhile pyIsDigit
        !ds2.isEmpty && boundaryOk (r3.drop ds2.length)
      else false
  else false

/-- Scan for `_HAS_EPISODE_RE` at every position, tracking whether the
previous character is a word character (for branch 3's `\b`). -/
def hasSEGo (prevIsWord : Bool) : List Char → Bool
  | [] => false
  | c :: rest =>
    (sxxEyyAt (c :: rest) || nxnAt (c :: rest) ||
      (!prevIsWord && seasonEpisodeAt (c :: rest)))
    || hasSEGo (isWordChar c) rest

/-- `has_season_episode` from analyzer.py: the scene name contains a
recognized season/episode marker. -/
def has_season_episode (cs : List Char) : Bool := hasSEGo false cs


/-!
### `extract_scene_title` (cleanup.py lines 74-116)

The hand-rolled extractor: collapse "Season N .. Ep M" to "Episode M",
split on separators, find the first `SxxEyy` token, then collect
Title-Case or numeric tokens until an end-marker or resolution token.
-/

/-- The separator class `[.\s_-]` of the "Season .. Ep" preprocessing
regex. -/
def isSepCls (c : Char) : Bool := c == '.' || c == '_' || c == '-' || isPySpace c

/-- Try to match `Season[.\s_-]*\d+[.\s_-]*Ep[.\s_-]*(\d+)\b` at the head
of `cs`: returns characters consumed and the captured digit group. -/
def trySeasonEpAt (cs : List Char) : Option (Nat × List Char) :=
  if ciPrefix "season".toList cs then
    let r1 := cs.drop 6
    let s1 := r1.takeWhile isSepCls
    let r2 := r1.drop s1.length
    let d1 := r2.takeWhile pyIsDigit
    if d1.isEmpty then none
    else
      let r3 := r2.drop d1.length
      let s2 := r3.takeWhile isSepCls
      let r4 := r3.drop s2.length
      if ciPrefix "ep".toList r4 then
        let r5 := r4.drop 2
        let s3 := r5.takeWhile isSepCls
        let r6 := r5.drop s3.length
        let d2 := r6.takeWhile pyIsDigit
        if d2.isEmpty then none
        else if boundaryOk (r6.drop d2.length) then
          some (6 + s1.length + d1.length + s2.length + 2 + s3.length + d2.length, d2)
        else none
      else none
  else none

/-- Left-to-right scan of the "Season .. Ep" substitution, replacing each
match (which must start at a `\b`) by `Episode <digits>`. -/
def seasonEpGo (fuel : Nat) (prevIsWord : Bool) (cs : List Char) : List Char :=
  match fuel, cs with
  | 0, cs => cs
  | _, [] => []
  | fuel' + 1, c :: rest =>
    if prevIsWord then c :: seasonEpGo fuel' (isWordChar c) rest
    else
      match trySeasonEpAt (c :: rest) with
      | some (n, ds) =>
        ("Episode ".toList ++ ds) ++ seasonEpGo fuel' true ((c :: rest).drop n)
      | none => c :: seasonEpGo fuel' (isWordChar c) rest

/-- Step 1 of the extractor: `re.sub` of the "Season .. Ep" pattern. -/
def seasonEpPreprocess (cs : List Char) : List Char :=
  seasonEpGo (cs.length + 1) false cs

/-- `re.split(r"[.\-_\s]+", s)` keeps empty pieces at the edges but
collapses separator runs; `skipping` records whether the scan is inside
a separator run. -/
def pySplitAux (skipping : Bool) (cur : List Char) : List Char → List (List Char)
  | [] => if skipping then [[]] else [cur.reverse]
  | c :: r =>
    if skipping then
      if isSepCls c then pySplitAux true [] r else pySplitAux false [c] r
    else
      if isSepCls c then cur.reverse :: pySplitAux true [] r
      else pySplitAux false (c :: cur) r

/-- Step 2 of the extractor: tokenize on runs of `.`, `-`, `_`,
whitespace. -/
def pySplitSeps (cs : List Char) : List (List Char) := pySplitAux false [] cs

/-- A token matching `^S\d{2}E\d{2}$` (case-insensitive, exactly two
digits each). -/
def isSxxEyyToken : List Char → Bool
  | [s, d1, d2, e, d3, d4] =>
    pyToLower s == 's' && pyIsDigit d1 && pyIsDigit d2 &&
      pyToLower e == 'e' && pyIsDigit d3 && pyIsDigit d4
  | _ => false

/-- Step 3: the tokens after the first `SxxEyy` token, if any. -/
def tokensAfterMarker : List (List Char) → Option (List (List Char))
  | [] => none
  | t :: ts => if isSxxEyyToken t then some ts else tokensAfterMarker ts

/-- The `END_MARKERS` vocabulary of cleanup.py (already lowercase). -/
def endMarkers : List (List Char) :=
  (["1080p", "720p", "2160p", "480p",
    "remux", "bluray", "web-dl", "webrip", "hdrip", "hdtv",
    "dts", "ddp51", "ac3", "vc1", "x264", "h264", "hevc",
    "amzn", "nf", "max", "dsnp", "btn", "kenobi", "asmofuscated"]
    : List String).map (fun s => s.toList)

/-- A (lowercased) token matching the resolution pattern `^\d{3,4}p$`. -/
def isResolutionTok : List Char → Bool
  | [a, b, c, p] => pyIsDigit a && pyIsDigit b && pyIsDigit c && p == 'p'
  | [a, b, c, d, p] => pyIsDigit a && pyIsDigit b && pyIsDigit c && pyIsDigit d && p == 'p'
  | _ => false

/-- ASCII model of Python's `str.islower`: at least one letter and no
uppercase letter. -/
def pyIsLowerStr (cs : List Char) : Bool :=
  cs.any pyIsAlpha && cs.all (fun c => !(pyIsUpper c))

/-- The extractor's Title-Case test `len(w) > 1 and w[0].isupper() and
w[1:].islower()`. -/
def isTitleCaseTok : List Char → Bool
  | c :: rest => !rest.isEmpty && pyIsUpper c && pyIsLowerStr rest
  | [] => false

/-- Steps 4-5: collect accepted tokens until the first end-marker or
resolution token (exclusive); unaccepted tokens are skipped without
terminating the scan. -/
def collectTitle : List (List Char) → List (List Char)
  | [] => []
  | w :: ws =>
    let low := w.map pyToLower
    if endMarkers.contains low || isResolutionTok low then []
    else if isTitleCaseTok w || pyIsDigitStr w then w :: collectTitle ws
    else collectTitle ws

/-- The fallback's separator class `[.\-_]` (no whitespace). -/
def isDotDashUnd (c : Char) : Bool := c == '.' || c == '-' || c == '_'

/-- Fallback `re.sub(r"[.\-_]+", " ", s)`: each run of `.`/`-`/`_`
becomes a single space. -/
def sepRunsToSpace (fuel : Nat) (cs : List Char) : List Char :=
  match fuel, cs with
  | 0, cs => cs
  | _, [] => []
  | fuel' + 1, c :: r =>
    if isDotDashUnd c then ' ' :: sepRunsToSpace fuel' (r.dropWhile isDotDashUnd)
    else c :: sepRunsToSpace fuel' r

/-- `extract_scene_title` from cleanup.py. -/
def extract_scene_title (scene_name : List Char) : List Char :=
  let s := seasonEpPreprocess scene_name
  match tokensAfterMarker (pySplitSeps s) with
  | some rest => List.intercalate [' '] (collectTitle rest)
  | none => sepRunsToSpace (s.length + 1) s


/-!
### `is_missing_title` and `compute_confidence` (analyzer.py lines 380-449)

analyzer.py's own `extract_scene_title` delegates to the external
`guessit` library; it is therefore modelled as a parameter (an arbitrary
function from scene names to extracted titles).  All theorems about the
scorer hold for every extractor; witnesses instantiate it with the
repository's own hand-rolled extractor from cleanup.py.
-/

/-- A string matching `(?i)^part\d+$` (`re.match` anchored at both
ends by the pattern's `$`). -/
def isPartDigits (cs : List Char) : Bool :=
  ciPrefix "part".toList cs && pyIsDigitStr (cs.drop 4)

/-- `is_missing_title` from analyzer.py, parameterized by the extractor:
missing when the stripped extraction is empty, is a pure number different
from a numeric expected title, or is `Part<digits>`. -/
def is_missing_title (extractor : List Char → List Char)
    (scene_name expected_title : List Char) : Bool :=
  let raw := pyStrip (extractor scene_name)
  let expected_norm := normalize_title expected_title
  if raw.isEmpty then true
  else if pyIsDigitStr raw then
    if pyIsDigitStr expected_norm && raw == expected_norm then false else true
  else if isPartDigits raw then true
  else false

/-- Whitespace split dropping empty pieces (Python's `str.split()`). -/
def pyWsSplit (cs : List Char) : List (List Char) :=
  (cs.splitOnP (fun c => isPySpace c)).filter (fun w => !w.isEmpty)

/-- Lexicographic comparison of character lists by code point (the order
Python's `sorted` uses on strings). -/
def lexLe : List Char → List Char → Bool
  | [], _ => true
  | _ :: _, [] => false
  | a :: as, b :: bs => if a == b then lexLe as bs else Nat.blt a.toNat b.toNat

/-- Insert into a lexicographically sorted list of tokens. -/
def insertTok (w : List Char) : List (List Char) → List (List Char)
  | [] => [w]
  | x :: xs => if lexLe w x then w :: x :: xs else x :: insertTok w xs

/-- Insertion sort of tokens. -/
def sortToks (ws : List (List Char)) : List (List Char) := ws.foldr insertTok []

/-- Indel (insertion/deletion) edit distance, fuel-structural so that it
evaluates in the kernel; `a.length + b.length + 1` fuel always
suffices. -/
def indelDistF (fuel : Nat) : List Char → List Char → Nat :=
  match fuel with
  | 0 => fun a b => a.length + b.length
  | fuel' + 1 => fun a b =>
    match a, b with
    | [], b => b.length
    | a, [] => a.length
    | x :: a', y :: b' =>
      if x == y then indelDistF fuel' a' b'
      else 1 + min (indelDistF fuel' a' (y :: b')) (indelDistF fuel' (x :: a') b')

/-- Indel edit distance between two character lists. -/
def indelDist (a b : List Char) : Nat := indelDistF (a.length + b.length + 1) a b

/-- Sort the whitespace tokens of a string and join them with single
spaces (the preprocessing of a token-sort comparison). -/
def sortJoin (a : List Char) : List Char :=
  List.intercalate [' '] (sortToks (pyWsSplit a))

/-- Normalized indel similarity of two strings, scaled to `[0, 100]`
(`100` when both are empty). -/
def indelSim (sa sb : List Char) : ℚ :=
  if sa.length + sb.length = 0 then 100
  else 100 * (1 - (indelDist sa sb : ℚ) / ((sa.length + sb.length : Nat) : ℚ))

/-- Model of the external `rapidfuzz` collaborator's `token_sort_ratio`:
sort the whitespace tokens of each string, join with single spaces, and
return the normalized indel similarity scaled to `[0, 100]`. -/
def tokenSortSim (a b : List Char) : ℚ := indelSim (sortJoin a) (sortJoin b)

/-- Round to an integer, ties to the even integer (Python's `round`). -/
def roundHalfEven (x : ℚ) : ℤ :=
  if x - ⌊x⌋ < 1/2 then ⌊x⌋
  else if 1/2 < x - ⌊x⌋ then ⌊x⌋ + 1
  else if ⌊x⌋ % 2 = 0 then ⌊x⌋ else ⌊x⌋ + 1

/-- Python's `round(x, 2)` over exact rationals. -/
def pyRound2 (q : ℚ) : ℚ := ((roundHalfEven (q * 100) : ℚ) / 100)

/-- `compute_confidence` from analyzer.py (lines 409-449), parameterized
by the extractor: substring override first, then the marker check, then
the missing-title default `0.8`, then the similarity-scaled score
`round(0.8 * (token_sort_ratio / 100) ** 1, 2)`. -/
def compute_confidence (extractor : List Char → List Char)
    (expected_title scene_name : List Char) : ℚ :=
  let norm_expected := normalize_title expected_title
  let norm_extracted_scene := normalize_title (extractor scene_name)
  let norm_scene := normalize_title scene_name
  if containsSub norm_expected norm_scene then 1
  else if !(has_season_episode scene_name) then 0
  else if is_missing_title extractor scene_name expected_title then 4/5
  else
    let title_score := tokenSortSim norm_expected norm_extracted_scene / 100
    pyRound2 ((4/5) * title_score ^ 1)

/-!
### The tag state machine

`check_episode` (analyzer.py lines 588-652) and `override_episode`
(app.py lines 236-310) mutate the `episode_tags` store for one episode
identity.  A tag set is modelled as its membership function.  An
automatic evaluation issues up to two separate tag writes (`add_tag`
commits before `remove_tag` runs), so its effect is modelled as the list
of committed intermediate states; the final state is the last of them.
-/

/-- The tags attached to one episode identity. -/
abbrev TagSet := String → Bool

/-- No tags (a freshly tracked identity). -/
def emptyTags : TagSet := fun _ => false

/-- `add_tag`: attach a tag (idempotent). -/
def addTag (t : String) (s : TagSet) : TagSet :=
  fun x => if x = t then true else s x

/-- `remove_tag`: detach a tag (idempotent). -/
def removeTag (t : String) (s : TagSet) : TagSet :=
  fun x => if x = t then false else s x

/-- The sequence of tag-store states committed by one automatic
evaluation of `check_episode` at confidence `conf` from state `s`:
nothing when the identity is overridden; otherwise `add_tag` of the
target tag and, only when that insert was new, `remove_tag` of the
opposite tag (`confidence >= 0.5` selects `matched`). -/
def checkEpisodeMicro (conf : ℚ) (s : TagSet) : List TagSet :=
  if s "override" then []
  else if 1/2 ≤ conf then
    if s "matched" then []
    else [addTag "matched" s,
          removeTag "problematic-episode" (addTag "matched" s)]
  else
    if s "problematic-episode" then []
    else [addTag "problematic-episode" s,
          removeTag "matched" (addTag "problematic-episode" s)]

/-- The tag set after one automatic evaluation of `check_episode`. -/
def checkEpisodeTags (conf : ℚ) (s : TagSet) : TagSet :=
  (checkEpisodeMicro conf s).getLastD s

/-- The tag set after the manual `override_episode` action (app.py):
remove `problematic-episode`, add `matched`, add `override`, in one
transaction. -/
def overrideEpisodeTags (s : TagSet) : TagSet :=
  addTag "override" (addTag "matched" (removeTag "problematic-episode" s))

/-- An operation on one episode identity's tags: an automatic evaluation
at some confidence, or the manual override action. -/
inductive EpisodeOp where
  | evaluate (conf : ℚ)
  | manualOverride

/-- Apply one operation. -/
def applyOp : EpisodeOp → TagSet → TagSet
  | .evaluate conf, s => checkEpisodeTags conf s
  | .manualOverride, s => overrideEpisodeTags s

/-- The tag-store states committed while one operation runs (the manual
override is a single transaction). -/
def opMicroStates : EpisodeOp → TagSet → List TagSet
  | .evaluate conf, s => checkEpisodeMicro conf s
  | .manualOverride, s => [overrideEpisodeTags s]

/-- Run a sequence of operations from the empty tag set. -/
def runOps (ops : List EpisodeOp) : TagSet :=
  ops.foldl (fun s op => applyOp op s) emptyTags

/-- `matched` and `problematic-episode` are not both present. -/
def tagsExclusive (s : TagSet) : Bool :=
  !(s "matched" && s "problematic-episode")

/-!
### Storage keys (checker.py lines 242-264, analyzer.py lines 597-603)
-/

/-- Python's `f"{n:02d}"`: decimal digits, left-padded to width two. -/
def pad2 (n : Nat) : List Char :=
  if n < 10 then '0' :: (toString n).toList else (toString n).toList

/-- `normalize_title` from checker.py (lines 231-236): `&`→`and`, NFKD
(identity at ASCII scope), keep alphanumerics, lowercase — no
number-word or `Part` collapsing. -/
def checkerNormalizeTitle (cs : List Char) : List Char :=
  if cs.isEmpty then []
  else ((replaceAmp cs).filter pyIsAlnum).map pyToLower

/-- A match of `[sS](\d{2})[eE](\d{2})` at the head of the list, with
the two captured numbers. -/
def parseSceneSEAt : List Char → Option (Nat × Nat)
  | s :: d1 :: d2 :: e :: d3 :: d4 :: _ =>
    if pyToLower s == 's' && pyIsDigit d1 && pyIsDigit d2 &&
        pyToLower e == 'e' && pyIsDigit d3 && pyIsDigit d4 then
      some ((d1.toNat - 48) * 10 + (d2.toNat - 48),
            (d3.toNat - 48) * 10 + (d4.toNat - 48))
    else none
  | _ => none

/-- `re.search(r"[sS](\d{2})[eE](\d{2})", scene)`: leftmost match. -/
def parseSceneSE : List Char → Option (Nat × Nat)
  | [] => none
  | c :: r =>
    match parseSceneSEAt (c :: r) with
    | some p => some p
    | none => parseSceneSE r

/-- The key string `series::<normalized title>::S..E..` as built by
checker.py, from a normalized title and two numbers. -/
def checkerKeyOf (series_title : List Char) (season episode : Nat) : List Char :=
  "series::".toList ++ checkerNormalizeTitle series_title ++ "::S".toList ++
    pad2 season ++ "E".toList ++ pad2 episode

/-- checker.py `check_episode`'s key: season/episode parsed from the
scene name when an `SxxEyy` pair is present, else the metadata
numbers. -/
def checkerEpisodeKey (series_title scene : List Char)
    (seasonNumber episodeNumber : Nat) : List Char :=
  match parseSceneSE scene with
  | some (ps, pe) => checkerKeyOf series_title ps pe
  | none => checkerKeyOf series_title seasonNumber episodeNumber

/-- analyzer.py `check_episode`'s key (lines 597-603): always built from
the metadata's `seasonNumber`/`episodeNumber`; the scene name from the
episode file is in scope but not consulted. -/
def analyzerEpisodeKey (series_title : List Char) (_scene : List Char)
    (seasonNumber episodeNumber : Nat) : List Char :=
  "series::".toList ++ normalize_title series_title ++ "::S".toList ++
    pad2 seasonNumber ++ "E".toList ++ pad2 episodeNumber

/-!
### The download-queue admission script (sabnzbd_prequeue_script.py)
-/

/-- `normalize` from sabnzbd_prequeue_script.py (lines 88-90). -/
def sabNormalize (cs : List Char) : List Char :=
  ((replaceAmp cs).filter pyIsAlnum).map pyToLower

/-- Outcome of one admission run: the stored mismatch count afterwards
and whether the download was accepted (`respond("1")`) or rejected
(`respond("2")`). -/
structure SabResult where
  count : Nat
  accepted : Bool

/-- The decision core of `main()` (lines 154-171), given the looked-up
expected title, the NZB name, and the identity's current stored count:
on a title match reset the counter and accept; at or above the threshold
accept without touching the counter; otherwise increment (`inc_count`
creates the row at 1 via `ON CONFLICT`) and reject. -/
def sabnzbdRun (threshold : Nat) (expected nzbname : List Char)
    (count : Nat) : SabResult :=
  if containsSub (sabNormalize expected) (sabNormalize nzbname) then ⟨0, true⟩
  else if threshold ≤ count then ⟨count, true⟩
  else ⟨count + 1, false⟩


/-!
## Helper lemmas
-/

theorem indelDistF_le : ∀ (fuel : Nat) (a b : List Char),
    indelDistF fuel a b ≤ a.length + b.length := by
  intro fuel
  induction fuel with
  | zero => intro a b; simp [indelDistF]
  | succ f ih =>
    intro a b
    match a, b with
    | [], b => simp [indelDistF]
    | x :: a', [] => simp [indelDistF]
    | x :: a', y :: b' =>
      simp only [indelDistF, List.length_cons]
      by_cases h : x == y
      · rw [if_pos h]
        have := ih a' b'
        omega
      · rw [if_neg h]
        have h1 := ih a' (y :: b')
        simp only [List.length_cons] at h1
        have h2 := Nat.min_le_left (indelDistF f a' (y :: b'))
          (indelDistF f (x :: a') b')
        omega

theorem indelDist_le (a b : List Char) : indelDist a b ≤ a.length + b.length :=
  indelDistF_le _ a b

theorem indelSim_bounds (sa sb : List Char) :
    0 ≤ indelSim sa sb ∧ indelSim sa sb ≤ 100 := by
  unfold indelSim
  by_cases h : sa.length + sb.length = 0
  · rw [if_pos h]; norm_num
  · rw [if_neg h]
    have hn : (0 : ℚ) < ((sa.length + sb.length : Nat) : ℚ) := by
      have : 0 < sa.length + sb.length := Nat.pos_of_ne_zero h
      exact_mod_cast this
    have hd0 : (0 : ℚ) ≤ ((indelDist sa sb : Nat) : ℚ) := by positivity
    have hdle : ((indelDist sa sb : Nat) : ℚ) ≤ ((sa.length + sb.length : Nat) : ℚ) := by
      exact_mod_cast indelDist_le sa sb
    constructor
    · have hle1 : ((indelDist sa sb : Nat) : ℚ) / ((sa.length + sb.length : Nat) : ℚ) ≤ 1 :=
        (div_le_one hn).mpr hdle
      nlinarith
    · have hge0 : 0 ≤ ((indelDist sa sb : Nat) : ℚ) / ((sa.length + sb.length : Nat) : ℚ) :=
        div_nonneg hd0 (le_of_lt hn)
      nlinarith

theorem tokenSortSim_bounds (a b : List Char) :
    0 ≤ tokenSortSim a b ∧ tokenSortSim a b ≤ 100 := by
  unfold tokenSortSim
  exact indelSim_bounds _ _

theorem roundHalfEven_nonneg {x : ℚ} (h : 0 ≤ x) : 0 ≤ roundHalfEven x := by
  unfold roundHalfEven
  have hf : (0 : ℤ) ≤ ⌊x⌋ := Int.floor_nonneg.mpr h
  split
  · exact hf
  · split
    · omega
    · split <;> omega

theorem roundHalfEven_le {x : ℚ} {b : ℤ} (hx : x ≤ (b : ℚ)) : roundHalfEven x ≤ b := by
  unfold roundHalfEven
  have hf : ⌊x⌋ ≤ b := by
    have := Int.floor_le_floor hx
    simpa using this
  split
  · exact hf
  · next h1 =>
    push_neg at h1
    split
    · next h2 =>
      have hlt : ⌊x⌋ < b := by
        by_contra hcon
        push_neg at hcon
        have hbf : (b : ℚ) ≤ (⌊x⌋ : ℚ) := by exact_mod_cast hcon
        linarith
      omega
    · next h2 =>
      push_neg at h2
      have heq : x - ⌊x⌋ = 1/2 := le_antisymm h2 h1
      have hlt : ⌊x⌋ < b := by
        by_contra hcon
        push_neg at hcon
        have hbf : (b : ℚ) ≤ (⌊x⌋ : ℚ) := by exact_mod_cast hcon
        linarith
      split <;> omega

theorem pyRound2_bounds {q : ℚ} (h0 : 0 ≤ q) (h1 : q ≤ 4/5) :
    0 ≤ pyRound2 q ∧ pyRound2 q ≤ 4/5 := by
  unfold pyRound2
  have hr0 : 0 ≤ roundHalfEven (q * 100) := roundHalfEven_nonneg (by linarith)
  have hr1 : roundHalfEven (q * 100) ≤ (80 : ℤ) := by
    apply roundHalfEven_le
    push_cast
    linarith
  constructor
  · positivity
  · rw [div_le_iff₀ (by norm_num : (0:ℚ) < 100)]
    calc ((roundHalfEven (q * 100) : ℤ) : ℚ) ≤ ((80 : ℤ) : ℚ) := by exact_mod_cast hr1
    _ = 4/5 * 100 := by norm_num

/-!
## Claims about the confidence scorer
-/

/-- C1: for every extractor, expected title and scene name, if the
normalized expected title is a substring of the normalized full scene
name then `compute_confidence` returns exactly `1.0` — with no
season/episode-marker requirement, because the substring rule is the
first branch. -/
theorem C1_substring_scores_one (extractor : List Char → List Char)
    (expected_title scene_name : List Char)
    (h : containsSub (normalize_title expected_title)
      (normalize_title scene_name) = true) :
    compute_confidence extractor expected_title scene_name = 1 := by
  simp only [compute_confidence]
  rw [if_pos h]

theorem C1_substring_scores_one_witness :
    has_season_episode "xabcy".toList = false ∧
    containsSub (normalize_title "abc".toList) (normalize_title "xabcy".toList)
      = true ∧
    compute_confidence extract_scene_title "abc".toList "xabcy".toList = 1 :=
  ⟨by decide, by decide,
    C1_substring_scores_one extract_scene_title "abc".toList "xabcy".toList
      (by decide)⟩

/-- C3: when the substring rule does not fire and the scene name has a
season/episode marker, the score is exactly `0.8` on a missing title,
and otherwise `round(0.8 * token_sort_ratio/100, 2)`; either way it
never exceeds `0.8`. -/
theorem C3_extraction_scores (extractor : List Char → List Char)
    (expected_title scene_name : List Char)
    (hsub : containsSub (normalize_title expected_title)
      (normalize_title scene_name) = false)
    (hmark : has_season_episode scene_name = true) :
    (is_missing_title extractor scene_name expected_title = true →
      compute_confidence extractor expected_title scene_name = 4/5) ∧
    (is_missing_title extractor scene_name expected_title = false →
      compute_confidence extractor expected_title scene_name =
        pyRound2 ((4/5) * (tokenSortSim (normalize_title expected_title)
          (normalize_title (extractor scene_name)) / 100) ^ 1)) ∧
    compute_confidence extractor expected_title scene_name ≤ 4/5 := by
  have hnsub : ¬(containsSub (normalize_title expected_title)
      (normalize_title scene_name) = true) := by simp [hsub]
  have hnmark : ¬((!has_season_episode scene_name) = true) := by simp [hmark]
  simp only [compute_confidence]
  rw [if_neg hnsub, if_neg hnmark]
  by_cases hmiss : is_missing_title extractor scene_name expected_title = true
  · rw [if_pos hmiss]
    refine ⟨fun _ => rfl, fun hc => ?_, le_refl _⟩
    rw [hmiss] at hc
    cases hc
  · rw [if_neg hmiss]
    refine ⟨fun hc => absurd hc hmiss, fun _ => rfl, ?_⟩
    have hts := tokenSortSim_bounds (normalize_title expected_title)
      (normalize_title (extractor scene_name))
    have h0 : 0 ≤ (4/5 : ℚ) * (tokenSortSim (normalize_title expected_title)
        (normalize_title (extractor scene_name)) / 100) ^ 1 := by
      rcases hts with ⟨h1, _⟩
      rw [pow_one]
      positivity
    have h1 : (4/5 : ℚ) * (tokenSortSim (normalize_title expected_title)
        (normalize_title (extractor scene_name)) / 100) ^ 1 ≤ 4/5 := by
      rcases hts with ⟨_, h2⟩
      rw [pow_one]
      nlinarith
    exact (pyRound2_bounds h0 h1).2

theorem C3_extraction_scores_witness :
    containsSub (normalize_title "Zed".toList)
      (normalize_title "Show.S01E02.Abc.720p".toList) = false ∧
    has_season_episode "Show.S01E02.Abc.720p".toList = true ∧
    is_missing_title extract_scene_title "Show.S01E02.Abc.720p".toList
      "Zed".toList = false ∧
    compute_confidence extract_scene_title "Zed".toList
      "Show.S01E02.Abc.720p".toList =
      pyRound2 ((4/5) * (tokenSortSim (normalize_title "Zed".toList)
        (normalize_title (extract_scene_title "Show.S01E02.Abc.720p".toList))
          / 100) ^ 1) :=
  ⟨by decide, by decide, by decide,
    ((C3_extraction_scores extract_scene_title "Zed".toList
      "Show.S01E02.Abc.720p".toList (by decide) (by decide)).2.1 (by decide))⟩

/-- C10: for every extractor and every pair of inputs, the scorer (a
total function in this model, matching the spec's never-raise contract)
returns a value in the closed interval `[0, 1]`. -/
theorem C10_confidence_in_unit_interval (extractor : List Char → List Char)
    (expected_title scene_name : List Char) :
    0 ≤ compute_confidence extractor expected_title scene_name ∧
    compute_confidence extractor expected_title scene_name ≤ 1 := by
  simp only [compute_confidence]
  by_cases h1 : containsSub (normalize_title expected_title)
      (normalize_title scene_name) = true
  · rw [if_pos h1]; norm_num
  · rw [if_neg h1]
    by_cases h2 : (!has_season_episode scene_name) = true
    · rw [if_pos h2]; norm_num
    · rw [if_neg h2]
      by_cases h3 : is_missing_title extractor scene_name expected_title = true
      · rw [if_pos h3]; norm_num
      · rw [if_neg h3]
        have hts := tokenSortSim_bounds (normalize_title expected_title)
          (normalize_title (extractor scene_name))
        rcases hts with ⟨ha, hb⟩
        have h0 : 0 ≤ (4/5 : ℚ) * (tokenSortSim (normalize_title expected_title)
            (normalize_title (extractor scene_name)) / 100) ^ 1 := by
          rw [pow_one]; positivity
        have hle : (4/5 : ℚ) * (tokenSortSim (normalize_title expected_title)
            (normalize_title (extractor scene_name)) / 100) ^ 1 ≤ 4/5 := by
          rw [pow_one]; nlinarith
        have hb2 := pyRound2_bounds h0 hle
        exact ⟨hb2.1, le_trans hb2.2 (by norm_num)⟩

/-!
## Claim about normalization idempotence
-/

theorem charOfNat_toNat {n : Nat} (h : n < 55296) : (Char.ofNat n).toNat = n := by
  have hv : n.isValidChar := Or.inl h
  rw [Char.ofNat, dif_pos hv]
  rfl

theorem pyToLower_eq_of_not_upper {c : Char}
    (h : ¬(65 ≤ c.toNat ∧ c.toNat ≤ 90)) : pyToLower c = c := by
  unfold pyToLower
  rw [if_neg h]

theorem pyToLower_toNat_of_upper {c : Char}
    (h : 65 ≤ c.toNat ∧ c.toNat ≤ 90) : (pyToLower c).toNat = c.toNat + 32 := by
  unfold pyToLower
  rw [if_pos h]
  exact charOfNat_toNat (by omega)

theorem pyToLower_idem (c : Char) : pyToLower (pyToLower c) = pyToLower c := by
  by_cases h : 65 ≤ c.toNat ∧ c.toNat ≤ 90
  · have ht := pyToLower_toNat_of_upper h
    apply pyToLower_eq_of_not_upper
    rw [ht]
    omega
  · rw [pyToLower_eq_of_not_upper h, pyToLower_eq_of_not_upper h]

theorem pyIsAlnum_pyToLower {c : Char} (h : pyIsAlnum c = true) :
    pyIsAlnum (pyToLower c) = true := by
  by_cases hu : 65 ≤ c.toNat ∧ c.toNat ≤ 90
  · have ht := pyToLower_toNat_of_upper hu
    simp only [pyIsAlnum, pyIsAlpha, pyIsUpper, pyIsLower, pyIsDigit,
      Bool.or_eq_true, Bool.and_eq_true, decide_eq_true_eq] at h ⊢
    rw [ht]
    omega
  · rw [pyToLower_eq_of_not_upper hu]
    exact h

theorem pyToLower_ne_amp {c : Char} (h : pyIsAlnum c = true) :
    pyToLower c ≠ '&' := by
  intro he
  have h38 : (pyToLower c).toNat = 38 := by rw [he]; rfl
  by_cases hu : 65 ≤ c.toNat ∧ c.toNat ≤ 90
  · rw [pyToLower_toNat_of_upper hu] at h38
    omega
  · rw [pyToLower_eq_of_not_upper hu] at h38
    simp only [pyIsAlnum, pyIsAlpha, pyIsUpper, pyIsLower, pyIsDigit,
      Bool.or_eq_true, Bool.and_eq_true, decide_eq_true_eq] at h
    omega

theorem normalize_title_mem {s : List Char} {c : Char}
    (h : c ∈ normalize_title s) : pyIsAlnum c = true ∧ pyToLower c = c := by
  unfold normalize_title at h
  by_cases hs : s.isEmpty
  · rw [if_pos hs] at h
    cases h
  · rw [if_neg hs] at h
    rcases List.mem_map.mp h with ⟨d, hd, rfl⟩
    have hda := (List.mem_filter.mp hd).2
    exact ⟨pyIsAlnum_pyToLower hda, pyToLower_idem d⟩

theorem replaceAmp_eq_self {l : List Char} (h : ∀ c ∈ l, c ≠ '&') :
    replaceAmp l = l := by
  induction l with
  | nil => rfl
  | cons c r ih =>
    unfold replaceAmp
    rw [if_neg (h c (List.mem_cons_self c r))]
    rw [ih (fun x hx => h x (List.mem_cons_of_mem c hx))]

theorem map_pyToLower_eq_self {l : List Char} (h : ∀ c ∈ l, pyToLower c = c) :
    l.map pyToLower = l := by
  induction l with
  | nil => rfl
  | cons c r ih =>
    simp only [List.map_cons]
    rw [h c (List.mem_cons_self c r), ih (fun x hx => h x (List.mem_cons_of_mem c hx))]

/-- C7 counterexample: normalization is not idempotent.  Stripping the
separator in `"o ne"` produces `"one"`, and a second pass collapses that
freshly created number word to `"1"`. -/
theorem C7_counterexample :
    normalize_title (normalize_title "o ne".toList)
      ≠ normalize_title "o ne".toList := by decide

/-- C7 amended: normalization is idempotent on every input whose
normalized form is a fixed point of the number-word collapse and of the
`Pt`/`Part` collapse (a second pass can differ only when stripping
separators creates a new number word or `Part<digits>` pattern). -/
theorem C7_normalize_idem_on_stable (s : List Char)
    (hc : collapse_numbers (normalize_title s) = normalize_title s)
    (hp : partNumberSub (normalize_title s) = normalize_title s) :
    normalize_title (normalize_title s) = normalize_title s := by
  have hmem : ∀ c ∈ normalize_title s, pyIsAlnum c = true ∧ pyToLower c = c :=
    fun c hcm => normalize_title_mem hcm
  by_cases h0 : (normalize_title s).isEmpty
  · have he : normalize_title s = [] := by
      cases hn : normalize_title s with
      | nil => rfl
      | cons a l => rw [hn] at h0; cases h0
    rw [he]
    rfl
  · conv_lhs => rw [normalize_title]
    rw [if_neg h0]
    rw [replaceAmp_eq_self (fun c hcm => by
      intro habs
      exact pyToLower_ne_amp (hmem c hcm).1 (by rw [(hmem c hcm).2, habs])),
      hc, hp]
    rw [List.filter_eq_self.mpr (fun c hcm => (hmem c hcm).1)]
    exact map_pyToLower_eq_self (fun c hcm => (hmem c hcm).2)

theorem C7_normalize_idem_on_stable_witness :
    collapse_numbers (normalize_title "Hello, World!".toList)
      = normalize_title "Hello, World!".toList ∧
    partNumberSub (normalize_title "Hello, World!".toList)
      = normalize_title "Hello, World!".toList ∧
    normalize_title (normalize_title "Hello, World!".toList)
      = normalize_title "Hello, World!".toList :=
  ⟨by decide, by decide,
    C7_normalize_idem_on_stable "Hello, World!".toList (by decide) (by decide)⟩

/-!
## Claims about the tag state machine
-/

theorem addTag_self (t : String) (s : TagSet) : addTag t s t = true := by
  simp [addTag]

theorem addTag_other {x t : String} (h : x ≠ t) (s : TagSet) :
    addTag t s x = s x := by
  simp [addTag, h]

theorem removeTag_self (t : String) (s : TagSet) : removeTag t s t = false := by
  simp [removeTag]

theorem removeTag_other {x t : String} (h : x ≠ t) (s : TagSet) :
    removeTag t s x = s x := by
  simp [removeTag, h]

theorem getLastD_nil {α : Type} (d : α) : List.getLastD [] d = d := rfl

theorem getLastD_pair {α : Type} (a b d : α) : List.getLastD [a, b] d = b := rfl

theorem checkEpisodeMicro_skip {conf : ℚ} {s : TagSet}
    (h : s "override" = true) : checkEpisodeMicro conf s = [] := by
  unfold checkEpisodeMicro
  rw [if_pos h]

theorem checkEpisodeMicro_matched_present {conf : ℚ} {s : TagSet}
    (ho : s "override" = false) (hc : 1/2 ≤ conf) (hm : s "matched" = true) :
    checkEpisodeMicro conf s = [] := by
  unfold checkEpisodeMicro
  rw [if_neg (by simp [ho]), if_pos hc, if_pos hm]

theorem checkEpisodeMicro_matched_new {conf : ℚ} {s : TagSet}
    (ho : s "override" = false) (hc : 1/2 ≤ conf) (hm : s "matched" = false) :
    checkEpisodeMicro conf s =
      [addTag "matched" s,
       removeTag "problematic-episode" (addTag "matched" s)] := by
  unfold checkEpisodeMicro
  rw [if_neg (by simp [ho]), if_pos hc, if_neg (by simp [hm])]

theorem checkEpisodeMicro_problem_present {conf : ℚ} {s : TagSet}
    (ho : s "override" = false) (hc : ¬(1/2 ≤ conf))
    (hp : s "problematic-episode" = true) : checkEpisodeMicro conf s = [] := by
  unfold checkEpisodeMicro
  rw [if_neg (by simp [ho]), if_neg hc, if_pos hp]

theorem checkEpisodeMicro_problem_new {conf : ℚ} {s : TagSet}
    (ho : s "override" = false) (hc : ¬(1/2 ≤ conf))
    (hp : s "problematic-episode" = false) :
    checkEpisodeMicro conf s =
      [addTag "problematic-episode" s,
       removeTag "matched" (addTag "problematic-episode" s)] := by
  unfold checkEpisodeMicro
  rw [if_neg (by simp [ho]), if_neg hc, if_neg (by simp [hp])]

/-- One automatic evaluation on any state with mutually exclusive
`matched`/`problematic-episode` tags sets them according to the `0.5`
threshold. -/
theorem checkEpisodeTags_threshold (conf : ℚ) (s : TagSet)
    (hov : s "override" = false)
    (hex : ¬(s "matched" = true ∧ s "problematic-episode" = true)) :
    (checkEpisodeTags conf s "matched" = true ↔ 1/2 ≤ conf) ∧
    (checkEpisodeTags conf s "problematic-episode" = true ↔ conf < 1/2) := by
  unfold checkEpisodeTags
  by_cases hc : 1/2 ≤ conf
  · by_cases hm : s "matched" = true
    · rw [checkEpisodeMicro_matched_present hov hc hm]
      rw [getLastD_nil]
      constructor
      · exact ⟨fun _ => hc, fun _ => hm⟩
      · constructor
        · intro hp
          exact absurd ⟨hm, hp⟩ hex
        · intro hlt
          exact absurd hc (not_le.mpr hlt)
    · rw [checkEpisodeMicro_matched_new hov hc (by
        cases hsm : s "matched" with
        | true => exact absurd hsm hm
        | false => rfl)]
      rw [getLastD_pair]
      constructor
      · rw [removeTag_other (by decide) (addTag "matched" s)]
        rw [addTag_self]
        exact ⟨fun _ => hc, fun _ => rfl⟩
      · rw [removeTag_self]
        constructor
        · intro hfalse
          cases hfalse
        · intro hlt
          exact absurd hc (not_le.mpr hlt)
  · by_cases hp : s "problematic-episode" = true
    · rw [checkEpisodeMicro_problem_present hov hc hp]
      rw [getLastD_nil]
      constructor
      · constructor
        · intro hm
          exact absurd ⟨hm, hp⟩ hex
        · intro hge
          exact absurd hge hc
      · exact ⟨fun _ => not_le.mp hc, fun _ => hp⟩
    · rw [checkEpisodeMicro_problem_new hov hc (by
        cases hsp : s "problematic-episode" with
        | true => exact absurd hsp hp
        | false => rfl)]
      rw [getLastD_pair]
      constructor
      · rw [removeTag_self]
        constructor
        · intro hfalse
          cases hfalse
        · intro hge
          exact absurd hge hc
      · rw [removeTag_other (by decide) (addTag "problematic-episode" s)]
        rw [addTag_self]
        exact ⟨fun _ => not_le.mp hc, fun _ => rfl⟩

theorem tagsExclusive_applyOp {s : TagSet} (h : tagsExclusive s = true)
    (op : EpisodeOp) : tagsExclusive (applyOp op s) = true := by
  cases op with
  | evaluate conf =>
    simp only [applyOp]
    unfold checkEpisodeTags
    by_cases ho : s "override" = true
    · rw [checkEpisodeMicro_skip ho, getLastD_nil]
      exact h
    · have ho' : s "override" = false := by
        cases hv : s "override" with
        | true => exact absurd hv ho
        | false => rfl
      by_cases hc : 1/2 ≤ conf
      · by_cases hm : s "matched" = true
        · rw [checkEpisodeMicro_matched_present ho' hc hm, getLastD_nil]
          exact h
        · have hm' : s "matched" = false := by
            cases hv : s "matched" with
            | true => exact absurd hv hm
            | false => rfl
          rw [checkEpisodeMicro_matched_new ho' hc hm', getLastD_pair]
          unfold tagsExclusive
          rw [removeTag_self]
          simp
      · by_cases hp : s "problematic-episode" = true
        · rw [checkEpisodeMicro_problem_present ho' hc hp, getLastD_nil]
          exact h
        · have hp' : s "problematic-episode" = false := by
            cases hv : s "problematic-episode" with
            | true => exact absurd hv hp
            | false => rfl
          rw [checkEpisodeMicro_problem_new ho' hc hp', getLastD_pair]
          unfold tagsExclusive
          rw [removeTag_self]
          simp
  | manualOverride =>
    simp only [applyOp]
    unfold tagsExclusive overrideEpisodeTags
    rw [addTag_other (show ("matched" : String) ≠ "override" from by decide),
      addTag_self,
      addTag_other (show ("problematic-episode" : String) ≠ "override" from by decide),
      addTag_other (show ("problematic-episode" : String) ≠ "matched" from by decide),
      removeTag_self]
    simp

/-- Every state reachable by operations from a fresh identity keeps
`matched` and `problematic-episode` mutually exclusive. -/
theorem runOps_exclusive (ops : List EpisodeOp) :
    tagsExclusive (runOps ops) = true := by
  unfold runOps
  have hgen : ∀ (l : List EpisodeOp) (s : TagSet), tagsExclusive s = true →
      tagsExclusive (l.foldl (fun s op => applyOp op s) s) = true := by
    intro l
    induction l with
    | nil => intro s hs; exact hs
    | cons op l ih =>
      intro s hs
      exact ih _ (tagsExclusive_applyOp hs op)
  exact hgen ops emptyTags (by decide)

/-- C5 amended: over every sequence of automatic evaluations and manual
override actions from a fresh identity, `matched` and
`problematic-episode` are mutually exclusive after every completed
operation (within one automatic evaluation the new tag is committed
before the opposite one is removed, so the exclusion can fail between
the two writes — see the counterexample). -/
theorem C5_tags_exclusive_after_ops (ops : List EpisodeOp) :
    tagsExclusive (runOps ops) = true :=
  runOps_exclusive ops

/-- C2: for every reachable, non-overridden identity state, an automatic
evaluation leaves `matched` present exactly when the confidence is at
least `0.5` (the boundary `0.5` itself counts as matched) and
`problematic-episode` present exactly when the confidence is below
`0.5`. -/
theorem C2_tags_follow_threshold (conf : ℚ) (ops : List EpisodeOp)
    (hov : runOps ops "override" = false) :
    (checkEpisodeTags conf (runOps ops) "matched" = true ↔ 1/2 ≤ conf) ∧
    (checkEpisodeTags conf (runOps ops) "problematic-episode" = true ↔
      conf < 1/2) := by
  apply checkEpisodeTags_threshold conf (runOps ops) hov
  have h := runOps_exclusive ops
  unfold tagsExclusive at h
  intro ⟨hm, hp⟩
  rw [hm, hp] at h
  cases h

theorem C2_tags_follow_threshold_witness :
    runOps [] "override" = false ∧
    (1/2 : ℚ) ≤ 1/2 ∧
    checkEpisodeTags (1/2) (runOps []) "matched" = true ∧
    checkEpisodeTags (1/2) (runOps []) "problematic-episode" = false := by
  have h := C2_tags_follow_threshold (1/2) [] (by decide)
  refine ⟨by decide, by norm_num, h.1.mpr (by norm_num), ?_⟩
  cases hv : checkEpisodeTags (1/2) (runOps []) "problematic-episode" with
  | false => rfl
  | true =>
    have := h.2.mp hv
    norm_num at this

/-- C5 counterexample: after a mismatch evaluation (state
`problematic-episode`) a match evaluation first commits `matched` and
only then removes `problematic-episode`, so at the instant between the
two tag writes both tags are present. -/
theorem C5_counterexample :
    ((opMicroStates (EpisodeOp.evaluate 1) (runOps [EpisodeOp.evaluate 0])).headD
      emptyTags) "matched" = true ∧
    ((opMicroStates (EpisodeOp.evaluate 1) (runOps [EpisodeOp.evaluate 0])).headD
      emptyTags) "problematic-episode" = true := by
  have h0 : ¬((1:ℚ)/2 ≤ 0) := by norm_num
  have h1 : runOps [EpisodeOp.evaluate 0] =
      removeTag "matched" (addTag "problematic-episode" emptyTags) := by
    unfold runOps
    simp only [List.foldl, applyOp]
    unfold checkEpisodeTags
    rw [checkEpisodeMicro_problem_new (by decide) h0 (by decide), getLastD_pair]
  simp only [opMicroStates]
  rw [h1]
  rw [checkEpisodeMicro_matched_new (by decide) (by norm_num) (by decide)]
  exact ⟨by decide, by decide⟩

/-- C6: an automatic evaluation of an identity carrying the `override`
tag mutates nothing: every tag is exactly as before. -/
theorem C6_override_freezes_tags (conf : ℚ) (s : TagSet)
    (h : s "override" = true) : checkEpisodeTags conf s = s := by
  unfold checkEpisodeTags
  rw [checkEpisodeMicro_skip h, getLastD_nil]

theorem C6_override_freezes_tags_witness :
    (addTag "override" emptyTags) "override" = true ∧
    checkEpisodeTags 0 (addTag "override" emptyTags)
      = addTag "override" emptyTags :=
  ⟨by decide, C6_override_freezes_tags 0 (addTag "override" emptyTags) (by decide)⟩

/-!
## Claim about the hand-rolled extractor
-/

/-- C4: on `"Show.S01E02.Episode.Name.720p.WEB.x264-GROUP"` extraction
yields `"Episode Name"` — tokens after the first `SxxEyy` token are
accumulated, the scan stops exclusively at the first resolution or
end-marker token, and non-Title-Case, non-numeric tokens are skipped
without terminating the scan (second input: the all-caps `WEB` between
two title words is skipped, not a stop). -/
theorem C4_extract_concrete :
    extract_scene_title "Show.S01E02.Episode.Name.720p.WEB.x264-GROUP".toList
      = "Episode Name".toList ∧
    extract_scene_title "Show.S01E02.Episode.WEB.Name.720p.x264-GROUP".toList
      = "Episode Name".toList := by
  exact ⟨by decide, by decide⟩

/-!
## Claim about storage keys
-/

/-- C8 counterexample: checker.py parses the key's season/episode out of
the scene filename, so renaming the file of an episode whose metadata
says S01E02 from `Show.S01E02.mkv` to `Show.S03E07.mkv` changes the key,
and the key differs from the metadata-derived one. -/
theorem C8_counterexample :
    checkerEpisodeKey "Show".toList "Show.S03E07.mkv".toList 1 2
      ≠ checkerEpisodeKey "Show".toList "Show.S01E02.mkv".toList 1 2 ∧
    checkerEpisodeKey "Show".toList "Show.S03E07.mkv".toList 1 2
      ≠ checkerKeyOf "Show".toList 1 2 := by
  exact ⟨by decide, by decide⟩

/-- C8 amended: analyzer.py's key is computed from the metadata's season
and episode only (renaming the file never changes it), while checker.py's
key uses the season/episode parsed from the scene name whenever an
`SxxEyy` pair is present (ignoring the metadata numbers) and falls back
to the metadata numbers only when no such pair occurs in the name. -/
theorem C8_keys (series_title scene : List Char) (mS mE ps pe : Nat) :
    (∀ scene' : List Char,
      analyzerEpisodeKey series_title scene mS mE
        = analyzerEpisodeKey series_title scene' mS mE) ∧
    (parseSceneSE scene = some (ps, pe) →
      checkerEpisodeKey series_title scene mS mE = checkerKeyOf series_title ps pe) ∧
    (parseSceneSE scene = none →
      checkerEpisodeKey series_title scene mS mE = checkerKeyOf series_title mS mE) := by
  refine ⟨fun _ => rfl, fun h => ?_, fun h => ?_⟩
  · unfold checkerEpisodeKey
    rw [h]
  · unfold checkerEpisodeKey
    rw [h]

theorem C8_keys_witness :
    parseSceneSE "Show.S03E07.mkv".toList = some (3, 7) ∧
    checkerEpisodeKey "Show".toList "Show.S03E07.mkv".toList 1 2
      = checkerKeyOf "Show".toList 3 7 ∧
    parseSceneSE "Show.mkv".toList = none ∧
    checkerEpisodeKey "Show".toList "Show.mkv".toList 1 2
      = checkerKeyOf "Show".toList 1 2 ∧
    analyzerEpisodeKey "Show".toList "Show.S03E07.mkv".toList 1 2
      = analyzerEpisodeKey "Show".toList "Renamed.File.mkv".toList 1 2 :=
  ⟨by decide,
   (C8_keys "Show".toList "Show.S03E07.mkv".toList 1 2 3 7).2.1 (by decide),
   by decide,
   (C8_keys "Show".toList "Show.mkv".toList 1 2 3 7).2.2 (by decide),
   (C8_keys "Show".toList "Show.S03E07.mkv".toList 1 2 3 7).1
     "Renamed.File.mkv".toList⟩

/-!
## Claim about the admission script's mismatch counter
-/

/-- C9 counterexample: with the default threshold 3, a mismatch run that
finds the stored count already at 3 accepts and leaves the counter at 3
instead of incrementing it to 4. -/
theorem C9_counterexample :
    containsSub (sabNormalize "Alpha".toList)
      (sabNormalize "Show.S01E02.Beta".toList) = false ∧
    (sabnzbdRun 3 "Alpha".toList "Show.S01E02.Beta".toList 3).count = 3 ∧
    (sabnzbdRun 3 "Alpha".toList "Show.S01E02.Beta".toList 3).accepted = true := by
  exact ⟨by decide, by decide, by decide⟩

/-- C9 amended: a match run resets the counter to 0; a mismatch run
increments it by exactly one (creating it at 1 from 0) only while the
stored count is below the threshold, and rejects; once the count has
reached the threshold a mismatch run accepts and leaves the counter
untouched. -/
theorem C9_counter_step (threshold : Nat) (expected nzbname : List Char)
    (count : Nat) :
    (containsSub (sabNormalize expected) (sabNormalize nzbname) = true →
      (sabnzbdRun threshold expected nzbname count).count = 0 ∧
      (sabnzbdRun threshold expected nzbname count).accepted = true) ∧
    (containsSub (sabNormalize expected) (sabNormalize nzbname) = false →
      count < threshold →
      (sabnzbdRun threshold expected nzbname count).count = count + 1 ∧
      (sabnzbdRun threshold expected nzbname count).accepted = false) ∧
    (containsSub (sabNormalize expected) (sabNormalize nzbname) = false →
      threshold ≤ count →
      (sabnzbdRun threshold expected nzbname count).count = count ∧
      (sabnzbdRun threshold expected nzbname count).accepted = true) := by
  unfold sabnzbdRun
  refine ⟨fun hm => ?_, fun hm hlt => ?_, fun hm hge => ?_⟩
  · rw [if_pos hm]
    exact ⟨rfl, rfl⟩
  · rw [if_neg (by simp [hm]), if_neg (by omega)]
    exact ⟨rfl, rfl⟩
  · rw [if_neg (by simp [hm]), if_pos hge]
    exact ⟨rfl, rfl⟩

theorem C9_counter_step_witness :
    containsSub (sabNormalize "Alpha".toList)
      (sabNormalize "Show.S01E02.Beta".toList) = false ∧
    (sabnzbdRun 3 "Alpha".toList "Show.S01E02.Beta".toList 0).count = 1 ∧
    containsSub (sabNormalize "Alpha".toList)
      (sabNormalize "Show.S01E02.Alpha".toList) = true ∧
    (sabnzbdRun 3 "Alpha".toList "Show.S01E02.Alpha".toList 2).count = 0 :=
  ⟨by decide,
   ((C9_counter_step 3 "Alpha".toList "Show.S01E02.Beta".toList 0).2.1
     (by decide) (by omega)).1,
   by decide,
   ((C9_counter_step 3 "Alpha".toList "Show.S01E02.Alpha".toList 2).1
     (by decide)).1⟩
